import Mathlib

/-!
Shallow embedding of the authentication / authorization core of the
stocks-hunter repository, together with theorems settling the claims about
its specification.

Modelling conventions:
* Machine time (`Date.now()`, `NOW()`) is a `Nat` of epoch milliseconds,
  passed explicitly to every operation that reads the clock.
* Database tables (`users`, `sessions`, `roles`, `permissions`, `user_roles`,
  `role_permissions`) are Lean lists of rows; SQL `UPDATE ... WHERE` is a
  positional `List.map`, `INSERT` an append.
* Randomness (session tokens, CSRF tokens, bcrypt salts) is injected: the
  fresh raw token and the bcrypt hash function are explicit arguments.
* Environment configuration (cookie names, TTL, the token pepper) is passed
  as explicit values mirroring `authConfig` / `getTokenPepper`.
* `NextResponse.json({...}, {status})` is an `HttpResponse` record; cookies
  set on a response are a list of `SetCookie` records.
* WHATWG URL parsing (`new URL(...)` in `ensureSameOrigin`) is a platform
  facility, modelled as an abstract `parseUrl : String → Option UrlModel`
  over which theorems quantify.
-/

namespace StocksHunter

/-! ### SHA-256 (Node `createHash("sha256")`), executable

`hashSessionToken` in `src/lib/auth/crypto.ts` computes
`createHash("sha256").update(`${rawToken}:${pepper}`).digest("hex")`.
The digest is reimplemented here over `Nat` words reduced mod `2^32`.
-/

/-- Word modulus for SHA-256 arithmetic: `2^32`. -/
def w32 : Nat := 4294967296

/-- Truncate to a 32-bit word. -/
def trunc (x : Nat) : Nat := x % w32

/-- Right rotation of a 32-bit word. -/
def rotr (n x : Nat) : Nat := trunc ((x >>> n) ||| (x <<< (32 - n)))

/-- Logical right shift. -/
def shr (n x : Nat) : Nat := x >>> n

/-- Bitwise complement within 32 bits. -/
def bnot32 (x : Nat) : Nat := 4294967295 - x

/-- Round constants of SHA-256 (FIPS 180-4). -/
def sha256K : List Nat :=
  [1116352408, 1899447441, 3049323471, 3921009573, 961987163, 1508970993,
   2453635748, 2870763221, 3624381080, 310598401, 607225278, 1426881987,
   1925078388, 2162078206, 2614888103, 3248222580, 3835390401, 4022224774,
   264347078, 604807628, 770255983, 1249150122, 1555081692, 1996064986,
   2554220882, 2821834349, 2952996808, 3210313671, 3336571891, 3584528711,
   113926993, 338241895, 666307205, 773529912, 1294757372, 1396182291,
   1695183700, 1986661051, 2177026350, 2456956037, 2730485921, 2820302411,
   3259730800, 3345764771, 3516065817, 3600352804, 4094571909, 275423344,
   430227734, 506948616, 659060556, 883997877, 958139571, 1322822218,
   1537002063, 1747873779, 1955562222, 2024104815, 2227730452, 2361852424,
   2428436474, 2756734187, 3204031479, 3329325298]

/-- Initial hash value of SHA-256 (FIPS 180-4). -/
def sha256H0 : List Nat :=
  [1779033703, 3144134277, 1013904242, 2773480762, 1359893119, 2600822924,
   528734635, 1541459225]

/-- UTF-8 encoding of a single code point as bytes. -/
def utf8EncodeCharNat (c : Nat) : List Nat :=
  if c < 0x80 then [c]
  else if c < 0x800 then
    [0xC0 ||| (c >>> 6), 0x80 ||| (c &&& 0x3F)]
  else if c < 0x10000 then
    [0xE0 ||| (c >>> 12), 0x80 ||| ((c >>> 6) &&& 0x3F), 0x80 ||| (c &&& 0x3F)]
  else
    [0xF0 ||| (c >>> 18), 0x80 ||| ((c >>> 12) &&& 0x3F), 0x80 ||| ((c >>> 6) &&& 0x3F),
     0x80 ||| (c &&& 0x3F)]

/-- UTF-8 bytes of a string, as `hash.update(string)` consumes it. -/
def utf8Bytes (s : String) : List Nat :=
  s.data.flatMap (fun c => utf8EncodeCharNat c.toNat)

/-- Big-endian byte rendering of a value at a fixed width. -/
def beBytes : Nat → Nat → List Nat
  | 0, _ => []
  | n + 1, v => (v >>> (8 * n)) % 256 :: beBytes n v

/-- SHA-256 message padding: `0x80`, zeros, then the 64-bit bit length. -/
def sha256Pad (msg : List Nat) : List Nat :=
  let len := msg.length
  let zeros := (64 - ((len + 9) % 64)) % 64
  msg ++ [0x80] ++ List.replicate zeros 0 ++ beBytes 8 (8 * len)

/-- Group the bytes of a block into 32-bit big-endian words. -/
def toWords : List Nat → List Nat
  | b0 :: b1 :: b2 :: b3 :: rest =>
      (b0 <<< 24 ||| b1 <<< 16 ||| b2 <<< 8 ||| b3) :: toWords rest
  | _ => []

/-- Append the next word of the message schedule, computed from the words
15, 2, 7 and 16 positions back. -/
def scheduleStep (w : List Nat) : List Nat :=
  let t := w.length
  let s0 :=
    let x := w.getD (t - 15) 0
    (rotr 7 x) ^^^ (rotr 18 x) ^^^ (shr 3 x)
  let s1 :=
    let x := w.getD (t - 2) 0
    (rotr 17 x) ^^^ (rotr 19 x) ^^^ (shr 10 x)
  w ++ [trunc (w.getD (t - 16) 0 + s0 + w.getD (t - 7) 0 + s1)]

/-- Extend the 16-word message schedule by `n` further words. -/
def extendSchedule (w : List Nat) : Nat → List Nat
  | 0 => w
  | n + 1 => scheduleStep (extendSchedule w n)

/-- Working registers of the SHA-256 compression function. -/
structure Sha256Regs where
  ra : Nat
  rb : Nat
  rc : Nat
  rd : Nat
  re : Nat
  rf : Nat
  rg : Nat
  rh : Nat
deriving Repr, DecidableEq

/-- One round of the SHA-256 compression function. -/
def compressRound (st : Sha256Regs) (kw : Nat × Nat) : Sha256Regs :=
  let bigS1 := (rotr 6 st.re) ^^^ (rotr 11 st.re) ^^^ (rotr 25 st.re)
  let ch := (st.re &&& st.rf) ^^^ ((bnot32 st.re) &&& st.rg)
  let temp1 := trunc (st.rh + bigS1 + ch + kw.1 + kw.2)
  let bigS0 := (rotr 2 st.ra) ^^^ (rotr 13 st.ra) ^^^ (rotr 22 st.ra)
  let maj := (st.ra &&& st.rb) ^^^ (st.ra &&& st.rc) ^^^ (st.rb &&& st.rc)
  let temp2 := trunc (bigS0 + maj)
  { ra := trunc (temp1 + temp2), rb := st.ra, rc := st.rb, rd := st.rc,
    re := trunc (st.rd + temp1), rf := st.re, rg := st.rf, rh := st.rg }

/-- Compress one 64-byte block into the running hash. -/
def compressBlock (h : List Nat) (block : List Nat) : List Nat :=
  let w := extendSchedule (toWords block) 48
  let init : Sha256Regs :=
    { ra := h.getD 0 0, rb := h.getD 1 0, rc := h.getD 2 0, rd := h.getD 3 0,
      re := h.getD 4 0, rf := h.getD 5 0, rg := h.getD 6 0, rh := h.getD 7 0 }
  let st := (List.zip sha256K w).foldl compressRound init
  [trunc (h.getD 0 0 + st.ra), trunc (h.getD 1 0 + st.rb),
   trunc (h.getD 2 0 + st.rc), trunc (h.getD 3 0 + st.rd),
   trunc (h.getD 4 0 + st.re), trunc (h.getD 5 0 + st.rf),
   trunc (h.getD 6 0 + st.rg), trunc (h.getD 7 0 + st.rh)]

/-- Fold the compression function over `n` successive blocks. -/
def processBlocks (h : List Nat) (bytes : List Nat) : Nat → List Nat
  | 0 => h
  | n + 1 => processBlocks (compressBlock h (bytes.take 64)) (bytes.drop 64) n

/-- SHA-256 digest of a byte list, as eight 32-bit words. -/
def sha256Words (msg : List Nat) : List Nat :=
  let padded := sha256Pad msg
  processBlocks sha256H0 padded (padded.length / 64)

/-- Lower-case hexadecimal digit. -/
def hexDigit (n : Nat) : Char :=
  if n < 10 then Char.ofNat (48 + n) else Char.ofNat (87 + n)

/-- Fixed-width lower-case hexadecimal rendering of a word. -/
def hexWord : Nat → Nat → List Char
  | 0, _ => []
  | n + 1, v => hexDigit ((v >>> (4 * n)) % 16) :: hexWord n v

/-- Hex-encoded SHA-256 digest of a string's UTF-8 bytes, as produced by
`createHash("sha256").update(s).digest("hex")` in Node. -/
def sha256Hex (s : String) : String :=
  String.mk ((sha256Words (utf8Bytes s)).flatMap (hexWord 8))

/-! ### Credential codec and configuration
(`src/lib/auth/crypto.ts`, `src/lib/auth/config.ts`) -/

/-- ASCII whitespace recognizer for the `trim` model. -/
def isSpaceChar (c : Char) : Bool :=
  c == ' ' || c == '\t' || c == '\n' || c == '\r'

/-- Embeds JS `String.prototype.trim` on its ASCII-whitespace fragment,
computed over the character list so the kernel can evaluate it. -/
def strTrim (s : String) : String :=
  String.mk (((s.data.dropWhile isSpaceChar).reverse.dropWhile isSpaceChar).reverse)

/-- Embeds JS `toUpperCase` on its ASCII fragment (`Char.toUpper`),
computed over the character list so the kernel can evaluate it. -/
def strToUpper (s : String) : String :=
  String.mk (s.data.map Char.toUpper)

/-- Embeds JS `toLowerCase` on its ASCII fragment. -/
def strToLower (s : String) : String :=
  String.mk (s.data.map Char.toLower)

/-- Embeds `normalizeEmail`: trim then lower-case. -/
def normalizeEmail (email : String) : String :=
  strToLower (strTrim email)

/-- Embeds `hashSessionToken`: the hex SHA-256 digest of the template
string `` `${rawToken}:${pepper}` ``. The pepper is threaded explicitly
(the source obtains it from `getTokenPepper()`). -/
def hashSessionToken (pepper : String) (rawToken : String) : String :=
  sha256Hex (rawToken ++ ":" ++ pepper)

/-- Embeds `getTokenPepper`: a trimmed, non-empty `AUTH_TOKEN_PEPPER` wins;
otherwise production throws (modelled as `Except.error`) and development
falls back to the fixed value. -/
def getTokenPepper (envPepper : Option String) (isProduction : Bool) :
    Except String String :=
  let trimmed := (envPepper.map strTrim).getD ""
  if trimmed ≠ "" then Except.ok trimmed
  else if isProduction then Except.error "AUTH_TOKEN_PEPPER must be set in production."
  else Except.ok "dev-only-pepper-change-me"

/-- Embeds `validateStrongPassword`: the four ASCII character-class tests
`/[A-Z]/`, `/[a-z]/`, `/\d/`, `/[^A-Za-z0-9]/`. -/
def validateStrongPassword (password : String) : Bool :=
  let hasUpper := password.data.any (fun c => 'A' ≤ c && c ≤ 'Z')
  let hasLower := password.data.any (fun c => 'a' ≤ c && c ≤ 'z')
  let hasDigit := password.data.any (fun c => '0' ≤ c && c ≤ '9')
  let hasSymbol := password.data.any (fun c =>
    !(('A' ≤ c && c ≤ 'Z') || ('a' ≤ c && c ≤ 'z') || ('0' ≤ c && c ≤ '9')))
  hasUpper && hasLower && hasDigit && hasSymbol

/-- Embeds the `authConfig` record. Environment parsing
(`parsePositiveInt` over `process.env`) only selects these values, so the
resolved configuration is modelled as the record itself; `defaultAuthConfig`
holds the source's literal defaults. -/
structure AuthConfig where
  sessionCookieName : String
  csrfCookieName : String
  sessionTtlHours : Nat
  bcryptRounds : Nat
deriving Repr, DecidableEq

/-- The defaults from `config.ts`: cookie names, 24h TTL, 12 rounds. -/
def defaultAuthConfig : AuthConfig :=
  { sessionCookieName := "stocks_hunter_session"
    csrfCookieName := "stocks_hunter_csrf"
    sessionTtlHours := 24
    bcryptRounds := 12 }

/-! ### Data model
Rows of the persisted tables (`db/migrations` schema) and the ephemeral
request/response/context values (`src/lib/auth/types.ts`). Primary keys are
modelled as `Nat`. -/

/-- Row of `public.users`. -/
structure DbUser where
  id : Nat
  email : String
  fullName : Option String
  isActive : Bool
  passwordHash : String
deriving Repr, DecidableEq

/-- Row of `public.sessions`. `expires_at` is epoch milliseconds;
`revoked_at` is `none` for an unrevoked session. -/
structure DbSession where
  id : Nat
  userId : Nat
  tokenHash : String
  expiresAt : Nat
  revokedAt : Option Nat
  ipAddress : Option String
  userAgent : Option String
deriving Repr, DecidableEq

/-- Row of `public.roles` (description omitted: no claim concerns it). -/
structure DbRole where
  id : Nat
  name : String
deriving Repr, DecidableEq

/-- Row of `public.permissions`. -/
structure DbPermission where
  id : Nat
  key : String
deriving Repr, DecidableEq

/-- Row of `public.audit_logs` (the fields the handlers under proof write;
the free-form `metadata` JSON is not modelled). -/
structure DbAuditLog where
  actorUserId : Option Nat
  action : String
  entityType : String
  entityId : Option Nat
  ipAddress : Option String
deriving Repr, DecidableEq

/-- The datastore: one list per table, plus the id the next inserted
session row receives (standing in for key generation). -/
structure Db where
  users : List DbUser
  sessions : List DbSession
  roles : List DbRole
  permissions : List DbPermission
  userRoles : List (Nat × Nat)
  rolePermissions : List (Nat × Nat)
  auditLogs : List DbAuditLog
  nextSessionId : Nat
deriving Repr, DecidableEq

/-- Embeds `AuthUser` from `types.ts`. -/
structure AuthUser where
  id : Nat
  email : String
  fullName : Option String
  isActive : Bool
  roles : List String
  permissions : List String
deriving Repr, DecidableEq

/-- Embeds `AuthContext` from `types.ts`. `sessionExpiresAt` is kept as the
epoch-millisecond value the source serializes to an ISO string. -/
structure AuthContext where
  user : AuthUser
  sessionId : Nat
  sessionExpiresAt : Nat
  sessionToken : String
deriving Repr, DecidableEq

/-- A `Set-Cookie` record attached to a response by
`attachSessionCookies` / `clearSessionCookies`. -/
structure SetCookie where
  name : String
  value : String
  httpOnly : Bool
  maxAge : Option Nat
  expires : Option Nat
deriving Repr, DecidableEq

/-- Embeds `NextResponse.json(body, {status})`: the status, the `error`
field of the JSON body when present, and any cookies set on the response. -/
structure HttpResponse where
  status : Nat
  error : Option String
  cookies : List SetCookie
deriving Repr, DecidableEq

/-- Shorthand for `NextResponse.json({error: msg}, {status})`. -/
def jsonError (status : Nat) (msg : String) : HttpResponse :=
  { status := status, error := some msg, cookies := [] }

/-- Shorthand for a 200 `NextResponse.json({ok: true, ...})`. -/
def jsonOk : HttpResponse :=
  { status := 200, error := none, cookies := [] }

/-- The parse result of `new URL(...)`; only `host` is consulted. -/
structure UrlModel where
  host : String
deriving Repr, DecidableEq

/-- The inbound `NextRequest` as the core reads it: method, headers
(lower-cased names), the serving host (`request.nextUrl.host`) and the
cookie jar. -/
structure RequestModel where
  method : String
  headers : List (String × String)
  host : String
  cookies : List (String × String)
deriving Repr, DecidableEq

/-- Embeds `request.headers.get(name)`. -/
def getHeader (req : RequestModel) (name : String) : Option String :=
  (req.headers.find? (fun h => h.1 == name)).map (fun h => h.2)

/-- Embeds `request.cookies.get(name)?.value`. -/
def cookieGet (req : RequestModel) (name : String) : Option String :=
  (req.cookies.find? (fun c => c.1 == name)).map (fun c => c.2)

/-- Embeds `getClientIp`: first entry of `x-forwarded-for` (trimmed),
falling back to `x-real-ip`. -/
def getClientIp (req : RequestModel) : Option String :=
  match getHeader req "x-forwarded-for" with
  | some forwardedFor =>
    (((forwardedFor.data.splitOn ',').map String.mk).head?.map strTrim)
  | none => getHeader req "x-real-ip"

/-- Embeds `getUserAgent`. -/
def getUserAgent (req : RequestModel) : Option String :=
  getHeader req "user-agent"

/-! ### Session store (`src/lib/auth/session.ts`) -/

/-- The 403 body every failed origin check returns. -/
def invalidOriginResponse : HttpResponse :=
  jsonError 403 "Invalid request origin."

/-- Embeds `ensureSameOrigin`. `parseUrl` abstracts the platform's
`new URL(...)` constructor (`none` models the thrown parse error). -/
def ensureSameOrigin (parseUrl : String → Option UrlModel) (req : RequestModel) :
    Option HttpResponse :=
  if req.method == "GET" || req.method == "HEAD" || req.method == "OPTIONS" then
    none
  else
    match getHeader req "origin" with
    | none => some invalidOriginResponse
    | some originHeader =>
      match parseUrl originHeader with
      | none => some invalidOriginResponse
      | some origin =>
        if origin.host == req.host then none else some invalidOriginResponse

/-- Result of `createSession`: the fields the caller receives. -/
structure NewSession where
  sessionId : Nat
  rawToken : String
  expiresAt : Nat
deriving Repr, DecidableEq

/-- Embeds `createSession`: hash the (injected) fresh raw token, insert a
session row expiring `sessionTtlHours` from now, return the raw token. -/
def createSession (cfg : AuthConfig) (pepper : String) (db : Db) (now : Nat)
    (userId : Nat) (req : RequestModel) (rawToken : String) : NewSession × Db :=
  let tokenHash := hashSessionToken pepper rawToken
  let expiresAt := now + cfg.sessionTtlHours * 60 * 60 * 1000
  let row : DbSession :=
    { id := db.nextSessionId, userId := userId, tokenHash := tokenHash,
      expiresAt := expiresAt, revokedAt := none,
      ipAddress := getClientIp req, userAgent := getUserAgent req }
  (⟨db.nextSessionId, rawToken, expiresAt⟩,
   { db with sessions := db.sessions ++ [row], nextSessionId := db.nextSessionId + 1 })

/-- Embeds `revokeSessionByToken`: `SET revoked_at = NOW() WHERE token_hash
= $1 AND revoked_at IS NULL`. -/
def revokeSessionByToken (pepper : String) (db : Db) (now : Nat)
    (rawToken : String) : Db :=
  let tokenHash := hashSessionToken pepper rawToken
  { db with sessions := db.sessions.map (fun s =>
      if s.tokenHash == tokenHash && s.revokedAt == none then
        { s with revokedAt := some now }
      else s) }

/-- Embeds `revokeSessionById`: the same update keyed by primary key. -/
def revokeSessionById (db : Db) (now : Nat) (sessionId : Nat) : Db :=
  { db with sessions := db.sessions.map (fun s =>
      if s.id == sessionId && s.revokedAt == none then
        { s with revokedAt := some now }
      else s) }

/-- Embeds `revokeSessionsForUser` (`src/lib/auth/service.ts`): bulk revoke
of every unrevoked session of one user. -/
def revokeSessionsForUser (db : Db) (now : Nat) (userId : Nat) : Db :=
  { db with sessions := db.sessions.map (fun s =>
      if s.userId == userId && s.revokedAt == none then
        { s with revokedAt := some now }
      else s) }

/-- Embeds `SELECT ... FROM users WHERE id = ...` row lookup. -/
def findUser (db : Db) (userId : Nat) : Option DbUser :=
  db.users.find? (fun u => u.id == userId)

/-- Role names of a user via `user_roles` ⋈ `roles`, deduplicated as
`ARRAY_AGG(DISTINCT r.name)` does. -/
def rolesOfUser (db : Db) (userId : Nat) : List String :=
  ((db.roles.filter (fun r =>
      db.userRoles.any (fun ur => ur.1 == userId && ur.2 == r.id))).map
    (fun r => r.name)).eraseDups

/-- Permission keys of a user via `user_roles` ⋈ `role_permissions` ⋈
`permissions`, deduplicated. -/
def permissionsOfUser (db : Db) (userId : Nat) : List String :=
  ((db.permissions.filter (fun p =>
      db.roles.any (fun r =>
        db.userRoles.any (fun ur => ur.1 == userId && ur.2 == r.id) &&
        db.rolePermissions.any (fun rp => rp.1 == r.id && rp.2 == p.id)))).map
    (fun p => p.key)).eraseDups

/-- The `WHERE` clause of the resolution query on one session row:
matching hash, `revoked_at IS NULL`, `expires_at > NOW()`, and the joined
owner exists with `is_active = TRUE`. -/
def sessionRowLive (db : Db) (now : Nat) (tokenHash : String)
    (s : DbSession) : Bool :=
  s.tokenHash == tokenHash && s.revokedAt == none &&
    decide (now < s.expiresAt) &&
    (match findUser db s.userId with
     | some u => u.isActive
     | none => false)

/-- Embeds `mapAuthContext`. -/
def mapAuthContext (db : Db) (u : DbUser) (s : DbSession)
    (sessionToken : String) : AuthContext :=
  { user :=
      { id := u.id, email := u.email, fullName := u.fullName,
        isActive := u.isActive, roles := rolesOfUser db u.id,
        permissions := permissionsOfUser db u.id }
    sessionId := s.id
    sessionExpiresAt := s.expiresAt
    sessionToken := sessionToken }

/-- Embeds `getAuthContextFromRequest` (the spec's `resolveContext`): read
the session cookie (a falsy — absent or empty — value short-circuits to
null), hash it, and run the single join query filtered to live rows. -/
def getAuthContextFromRequest (cfg : AuthConfig) (pepper : String) (db : Db)
    (now : Nat) (req : RequestModel) : Option AuthContext :=
  match cookieGet req cfg.sessionCookieName with
  | none => none
  | some sessionToken =>
    if sessionToken == "" then none
    else
      let tokenHash := hashSessionToken pepper sessionToken
      match db.sessions.find? (sessionRowLive db now tokenHash) with
      | none => none
      | some s =>
        match findUser db s.userId with
        | none => none
        | some u => some (mapAuthContext db u s sessionToken)

/-- Embeds `attachSessionCookies`: session cookie (`HttpOnly`) and CSRF
cookie, both expiring with the session. -/
def attachSessionCookies (cfg : AuthConfig) (resp : HttpResponse)
    (rawSessionToken : String) (expiresAt : Nat) (csrfToken : String) :
    HttpResponse :=
  { resp with cookies := resp.cookies ++
      [{ name := cfg.sessionCookieName, value := rawSessionToken,
         httpOnly := true, maxAge := none, expires := some expiresAt },
       { name := cfg.csrfCookieName, value := csrfToken,
         httpOnly := false, maxAge := none, expires := some expiresAt }] }

/-- Embeds `clearSessionCookies`: both cookies emptied with `maxAge: 0`. -/
def clearSessionCookies (cfg : AuthConfig) (resp : HttpResponse) :
    HttpResponse :=
  { resp with cookies := resp.cookies ++
      [{ name := cfg.sessionCookieName, value := "",
         httpOnly := true, maxAge := some 0, expires := none },
       { name := cfg.csrfCookieName, value := "",
         httpOnly := false, maxAge := some 0, expires := none }] }

/-- Embeds `rotateSession`: create a fresh session for the context's user,
then revoke the session the context was resolved from. -/
def rotateSession (cfg : AuthConfig) (pepper : String) (db : Db) (now : Nat)
    (req : RequestModel) (context : AuthContext) (freshToken : String) :
    NewSession × Db :=
  let created := createSession cfg pepper db now context.user.id req freshToken
  (created.1, revokeSessionById created.2 now context.sessionId)

/-! ### Guard layer (`src/lib/auth/guard.ts`) -/

/-- Embeds `hasRole`: upper-case both the context's role names and the
required names, then test membership. `String.toUpper` stands in for the
ASCII fragment of JS `toUpperCase()`. -/
def hasRole (context : AuthContext) (roles : List String) : Bool :=
  roles.any (fun role =>
    context.user.roles.any (fun held => strToUpper held == strToUpper role))

/-- Embeds `hasPermission`: exact-string membership of any required key. -/
def hasPermission (context : AuthContext) (permissions : List String) : Bool :=
  permissions.any (fun permission => context.user.permissions.contains permission)

/-- Embeds `isAdmin`. -/
def isAdmin (context : AuthContext) : Bool :=
  hasRole context ["ADMIN"] || hasPermission context ["admin:all"]

/-- Embeds `requireAuth`: the resolved context, or the uniform 401. -/
def requireAuth (cfg : AuthConfig) (pepper : String) (db : Db) (now : Nat)
    (req : RequestModel) : Except HttpResponse AuthContext :=
  match getAuthContextFromRequest cfg pepper db now req with
  | none => Except.error (jsonError 401 "Authentication required.")
  | some context => Except.ok context

/-- Embeds `requirePermission`: `isAdmin` short-circuits, then any granted
key allows, otherwise 403. -/
def requirePermission (context : AuthContext) (permissions : List String) :
    Option HttpResponse :=
  if isAdmin context then none
  else if hasPermission context permissions then none
  else some (jsonError 403 "Forbidden.")

/-- Embeds `requireRole`. -/
def requireRole (context : AuthContext) (roles : List String) :
    Option HttpResponse :=
  if hasRole context roles then none
  else some (jsonError 403 "Forbidden.")

/-! ### Rate limiter (`src/lib/auth/rate-limit.ts`) -/

/-- Embeds the `Bucket` record of the login throttle. -/
structure Bucket where
  count : Nat
  windowStart : Nat
  blockedUntil : Nat
deriving Repr, DecidableEq

/-- The process-local `loginBuckets` map, as an association list. -/
abbrev BucketMap : Type := List (String × Bucket)

/-- Embeds `Map.get`. -/
def bucketFind (m : BucketMap) (key : String) : Option Bucket :=
  (m.find? (fun e => e.1 == key)).map (fun e => e.2)

/-- Embeds `Map.set`: replace in place, or append a new entry. -/
def bucketSet (m : BucketMap) (key : String) (b : Bucket) : BucketMap :=
  if m.any (fun e => e.1 == key) then
    m.map (fun e => if e.1 == key then (key, b) else e)
  else m ++ [(key, b)]

/-- Embeds `Map.delete`. -/
def bucketDelete (m : BucketMap) (key : String) : BucketMap :=
  m.filter (fun e => !(e.1 == key))

/-- `WINDOW_MS`: 10 minutes. -/
def WINDOW_MS : Nat := 600000

/-- `MAX_ATTEMPTS`: the failure threshold. -/
def MAX_ATTEMPTS : Nat := 8

/-- `BLOCK_MS`: 10 minutes. -/
def BLOCK_MS : Nat := 600000

/-- The `{allowed, retryAfterSeconds}` result of the throttle check. -/
structure ThrottleState where
  allowed : Bool
  retryAfterSeconds : Nat
deriving Repr, DecidableEq

/-- Embeds `getLoginThrottleState` (the spec's `checkAllowed`), returning
the result together with the possibly-reset bucket map.
`Math.ceil((blockedUntil - ts) / 1000)` is `(blockedUntil - ts + 999) / 1000`
on naturals. The JS stale-window test `ts - windowStart > WINDOW_MS` agrees
with the truncated `Nat` subtraction used here: when `ts < windowStart` the
JS difference is negative and the `Nat` difference is zero, and both fail
the comparison. -/
def getLoginThrottleState (m : BucketMap) (now : Nat) (key : String) :
    ThrottleState × BucketMap :=
  match bucketFind m key with
  | none => (⟨true, 0⟩, m)
  | some bucket =>
    if now < bucket.blockedUntil then
      (⟨false, (bucket.blockedUntil - now + 999) / 1000⟩, m)
    else if WINDOW_MS < now - bucket.windowStart then
      (⟨true, 0⟩, bucketSet m key ⟨0, now, 0⟩)
    else
      (⟨true, 0⟩, m)

/-- Embeds `registerLoginFailure` (the spec's `recordFailure`). -/
def registerLoginFailure (m : BucketMap) (now : Nat) (key : String) :
    BucketMap :=
  match bucketFind m key with
  | none => bucketSet m key ⟨1, now, 0⟩
  | some current =>
    if WINDOW_MS < now - current.windowStart then
      bucketSet m key ⟨1, now, 0⟩
    else
      let nextCount := current.count + 1
      let blockedUntil := if MAX_ATTEMPTS ≤ nextCount then now + BLOCK_MS else 0
      bucketSet m key ⟨nextCount, current.windowStart, blockedUntil⟩

/-- Embeds `registerLoginSuccess` (the spec's `recordSuccess`). -/
def registerLoginSuccess (m : BucketMap) (key : String) : BucketMap :=
  bucketDelete m key

/-- Fold `registerLoginFailure` over a list of failure instants. -/
def applyFailuresAt (key : String) (times : List Nat) (m : BucketMap) :
    BucketMap :=
  times.foldl (fun acc t => registerLoginFailure acc t key) m

/-! ### RBAC administration service (`src/lib/auth/service.ts`) and audit
logger (`src/lib/auth/audit.ts`) -/

/-- The parsed `updateUserPayloadSchema` body of `PATCH /admin/users/:id`. -/
structure UpdateUserPayload where
  fullName : Option String
  isActive : Option Bool
  password : Option String
deriving Repr, DecidableEq

/-- The zod bounds of `updateUserPayloadSchema`: optional full name of
1–180 characters, optional boolean, optional password of 10–128
characters. -/
def updateUserPayloadValid (p : UpdateUserPayload) : Bool :=
  (match p.fullName with
   | none => true
   | some f => 1 ≤ f.length && f.length ≤ 180) &&
  (match p.password with
   | none => true
   | some pw => 10 ≤ pw.length && pw.length ≤ 128)

/-- The update set `updateUser` applies to the user row. -/
structure UserUpdates where
  fullName : Option String
  isActive : Option Bool
  passwordHash : Option String
deriving Repr, DecidableEq

/-- Embeds `updateUser`: dynamic partial `UPDATE` of the user row; with no
recognized field the function returns without touching the store. -/
def updateUser (db : Db) (userId : Nat) (updates : UserUpdates) : Db :=
  if updates.fullName == none && updates.isActive == none &&
      updates.passwordHash == none then
    db
  else
    { db with users := db.users.map (fun u =>
        if u.id == userId then
          { u with
            fullName := match updates.fullName with
              | some f => some f
              | none => u.fullName
            isActive := (updates.isActive.getD u.isActive)
            passwordHash := (updates.passwordHash.getD u.passwordHash) }
        else u) }

/-- Embeds `writeAuditLog`: append one row. The source catches and logs
any insert failure; the failure-free datastore model keeps the append. -/
def writeAuditLog (db : Db) (entry : DbAuditLog) : Db :=
  { db with auditLogs := db.auditLogs ++ [entry] }

/-! ### Route handlers -/

/-- Embeds `POST /api/auth/logout`: origin gate, revoke the session named
by the cookie when nonempty, answer 200 with both cookies cleared, and
append the audit row. -/
def logoutPOST (parseUrl : String → Option UrlModel) (cfg : AuthConfig)
    (pepper : String) (db : Db) (now : Nat) (req : RequestModel) :
    HttpResponse × Db :=
  match ensureSameOrigin parseUrl req with
  | some originError => (originError, db)
  | none =>
    let auth := getAuthContextFromRequest cfg pepper db now req
    let db1 :=
      match cookieGet req cfg.sessionCookieName with
      | some rawToken =>
        if rawToken == "" then db else revokeSessionByToken pepper db now rawToken
      | none => db
    let response := clearSessionCookies cfg jsonOk
    let db2 := writeAuditLog db1
      { actorUserId := auth.map (fun a => a.user.id), action := "LOGOUT",
        entityType := "session", entityId := auth.map (fun a => a.sessionId),
        ipAddress := getClientIp req }
    (response, db2)

/-- Tail of the `PATCH /api/admin/users/:id` handler once validation has
produced the optional new password hash: partial update, conditional bulk
revocation, audit append, 200. -/
def finishAdminUserUpdate (db : Db) (now : Nat) (req : RequestModel)
    (auth : AuthContext) (userId : Nat) (payload : UpdateUserPayload)
    (passwordHash : Option String) : HttpResponse × Db :=
  let db1 := updateUser db userId
    { fullName := payload.fullName, isActive := payload.isActive,
      passwordHash := passwordHash }
  let db2 :=
    if payload.isActive == some false || passwordHash.isSome then
      revokeSessionsForUser db1 now userId
    else db1
  let db3 := writeAuditLog db2
    { actorUserId := some auth.user.id, action := "USER_UPDATED",
      entityType := "user", entityId := some userId,
      ipAddress := getClientIp req }
  (jsonOk, db3)

/-- Embeds `PATCH /api/admin/users/:id`: origin gate, `requireAuth`,
`requirePermission("admin:users:manage")`, route-id and payload
validation, the strong-password gate, then `finishAdminUserUpdate`.
`bcryptHash` injects `hashPassword` (bcrypt with a random salt). -/
def adminUsersPATCH (parseUrl : String → Option UrlModel) (cfg : AuthConfig)
    (pepper : String) (bcryptHash : String → String) (db : Db) (now : Nat)
    (req : RequestModel) (routeId : Option Nat) (payload : UpdateUserPayload) :
    HttpResponse × Db :=
  match ensureSameOrigin parseUrl req with
  | some originError => (originError, db)
  | none =>
    match requireAuth cfg pepper db now req with
    | Except.error e => (e, db)
    | Except.ok auth =>
      match requirePermission auth ["admin:users:manage"] with
      | some permissionError => (permissionError, db)
      | none =>
        match routeId with
        | none => (jsonError 400 "User id is required.", db)
        | some userId =>
          if !updateUserPayloadValid payload then
            (jsonError 400 "Invalid payload.", db)
          else
            match payload.password with
            | some password =>
              if 0 < password.length then
                if !validateStrongPassword password then
                  (jsonError 400
                    "Password must include uppercase, lowercase, number, and special character.",
                   db)
                else
                  finishAdminUserUpdate db now req auth userId payload
                    (some (bcryptHash password))
              else
                finishAdminUserUpdate db now req auth userId payload none
            | none =>
              finishAdminUserUpdate db now req auth userId payload none

/-! ### Concrete fixtures
A small concrete store, request and URL parser used to exercise the
theorems on executable inputs. -/

/-- Fixture pepper. -/
def fxPepper : String := "p"

/-- Fixture parser: resolves exactly the app's own origin. -/
def fxParseUrl (s : String) : Option UrlModel :=
  if s = "https://app.example" then some ⟨"app.example"⟩ else none

/-- Fixture store: an active admin (id 1, role `ADMIN`, permission
`admin:users:manage`) and an active plain user (id 2), each with one live
session. -/
def fxDb : Db :=
  { users :=
      [{ id := 1, email := "alice@x.com", fullName := some "Alice",
         isActive := true, passwordHash := "ha" },
       { id := 2, email := "bob@x.com", fullName := some "Bob",
         isActive := true, passwordHash := "hb" }]
    sessions :=
      [{ id := 1, userId := 1, tokenHash := hashSessionToken fxPepper "tokA",
         expiresAt := 2000000, revokedAt := none, ipAddress := none,
         userAgent := none },
       { id := 2, userId := 2, tokenHash := hashSessionToken fxPepper "tokB",
         expiresAt := 2000000, revokedAt := none, ipAddress := none,
         userAgent := none }]
    roles := [⟨1, "ADMIN"⟩]
    permissions := [⟨1, "admin:users:manage"⟩]
    userRoles := [(1, 1)]
    rolePermissions := [(1, 1)]
    auditLogs := []
    nextSessionId := 3 }

/-- Fixture request: a same-origin POST carrying the admin's session. -/
def fxReqAlice : RequestModel :=
  { method := "POST", headers := [("origin", "https://app.example")],
    host := "app.example",
    cookies := [("stocks_hunter_session", "tokA")] }

/-- Fixture request: a GET carrying the plain user's session. -/
def fxReqBob : RequestModel :=
  { method := "GET", headers := [], host := "app.example",
    cookies := [("stocks_hunter_session", "tokB")] }

/-! ## Theorems -/

set_option maxRecDepth 40000

/-- FIPS 180-4 test vector: the digest of `"abc"`. -/
theorem sha256Hex_abc :
    sha256Hex "abc" =
      "ba7816bf8f01cfea414140de5dae2223b00361a396177a9cb410ff61f20015ad" := by
  decide

/-- FIPS 180-4 test vector: the digest of the empty message. -/
theorem sha256Hex_empty :
    sha256Hex "" =
      "e3b0c44298fc1c149afbf4c8996fb92427ae41e4649b934ca495991b7852b855" := by
  decide

/-- Upper-casing fixes the literal `"ADMIN"`. -/
theorem strToUpper_ADMIN : strToUpper "ADMIN" = "ADMIN" := by decide

/-- C3: `isAdmin(c)` is true iff `c`'s role list contains `ADMIN` under
case-insensitive comparison or `c`'s permission list contains the exact
key `admin:all`; either alone suffices. -/
theorem isAdmin_iff_admin_role_or_admin_all (context : AuthContext) :
    isAdmin context = true ↔
      (∃ r ∈ context.user.roles, strToUpper r = "ADMIN") ∨
        "admin:all" ∈ context.user.permissions := by
  simp [isAdmin, hasRole, hasPermission, List.any_eq_true, strToUpper_ADMIN]

/-- C4: `requirePermission` allows when `isAdmin` holds regardless of
grants; otherwise it allows exactly when the context's permission set
meets the required keys, and denies with the 403 "Forbidden." response. -/
theorem requirePermission_allows_iff (context : AuthContext)
    (ks : List String) (_hne : ks ≠ []) :
    (requirePermission context ks = none ↔
      isAdmin context = true ∨ ∃ k ∈ ks, k ∈ context.user.permissions) ∧
    (requirePermission context ks = none ∨
      requirePermission context ks = some (jsonError 403 "Forbidden.")) := by
  have hperm : hasPermission context ks = true ↔
      ∃ k ∈ ks, k ∈ context.user.permissions := by
    simp [hasPermission, List.any_eq_true]
  unfold requirePermission
  by_cases hA : isAdmin context
  · simp [hA]
  · by_cases hP : hasPermission context ks
    · simp [hA, hP, hperm.mp hP]
    · have hnot : ¬ ∃ k ∈ ks, k ∈ context.user.permissions := fun h =>
        hP (hperm.mpr h)
      simp only [Bool.not_eq_true] at hA hP
      simp [hA, hP, hnot]

/-- C4 witness: an admin context is allowed `investments:read` without an
explicit grant, and a bare context is denied with the 403. -/
theorem requirePermission_allows_iff_witness :
    requirePermission
        { user := { id := 1, email := "a@x", fullName := none, isActive := true,
                    roles := ["Admin"], permissions := [] },
          sessionId := 1, sessionExpiresAt := 0, sessionToken := "t" }
        ["investments:read"] = none ∧
    requirePermission
        { user := { id := 2, email := "b@x", fullName := none, isActive := true,
                    roles := ["VIEWER"], permissions := ["investments:write"] },
          sessionId := 2, sessionExpiresAt := 0, sessionToken := "u" }
        ["investments:read"] = some (jsonError 403 "Forbidden.") := by
  constructor
  · exact (requirePermission_allows_iff _ ["investments:read"] (by decide)).1.mpr
      (Or.inl (by decide))
  · have h := (requirePermission_allows_iff
      { user := { id := 2, email := "b@x", fullName := none, isActive := true,
                  roles := ["VIEWER"], permissions := ["investments:write"] },
        sessionId := 2, sessionExpiresAt := 0, sessionToken := "u" }
      ["investments:read"] (by decide))
    rcases h.2 with h2 | h2
    · exfalso
      have h3 := h.1.mp h2
      rcases h3 with hAdm | ⟨k, hk, hmem⟩
      · exact absurd hAdm (by decide)
      · simp only [List.mem_singleton] at hk
        subst hk
        simp at hmem
    · exact h2

/-- C5: `ensureSameOrigin` exempts GET/HEAD/OPTIONS; for every other
method it returns the 403 exactly when the Origin header is absent,
unparsable, or of a different host, and `null` exactly when the Origin
host equals the request host. -/
theorem ensureSameOrigin_spec (parseUrl : String → Option UrlModel)
    (req : RequestModel) :
    ((req.method = "GET" ∨ req.method = "HEAD" ∨ req.method = "OPTIONS") →
      ensureSameOrigin parseUrl req = none) ∧
    (req.method ≠ "GET" → req.method ≠ "HEAD" → req.method ≠ "OPTIONS" →
      ((ensureSameOrigin parseUrl req = some invalidOriginResponse ∧
          invalidOriginResponse.status = 403 ↔
        getHeader req "origin" = none ∨
          (∃ o, getHeader req "origin" = some o ∧ parseUrl o = none) ∨
          (∃ o u, getHeader req "origin" = some o ∧ parseUrl o = some u ∧
            u.host ≠ req.host)) ∧
       (ensureSameOrigin parseUrl req = none ↔
        ∃ o u, getHeader req "origin" = some o ∧ parseUrl o = some u ∧
          u.host = req.host))) := by
  have hstatus : invalidOriginResponse.status = 403 := rfl
  constructor
  · intro h
    unfold ensureSameOrigin
    rcases h with h | h | h <;> simp [h]
  · intro h1 h2 h3
    have hm : (req.method == "GET" || req.method == "HEAD" ||
        req.method == "OPTIONS") = false := by
      simp [h1, h2, h3]
    unfold ensureSameOrigin
    rw [hm]
    simp only [Bool.false_eq_true, if_false]
    cases ho : getHeader req "origin" with
    | none => simp [hstatus]
    | some o =>
      cases hp : parseUrl o with
      | none => simp [hp, hstatus]
      | some u =>
        by_cases hh : u.host = req.host
        · simp [hp, hh]
        · simp only [hp]
          have hb : (u.host == req.host) = false := by simp [hh]
          rw [hb]
          simp only [Bool.false_eq_true, if_false]
          constructor
          · constructor
            · intro _
              exact Or.inr (Or.inr ⟨o, u, rfl, hp, hh⟩)
            · intro _
              exact ⟨by trivial, hstatus⟩
          · constructor
            · intro hcontra
              exact absurd hcontra (by simp)
            · rintro ⟨o', u', ho', hp', hh'⟩
              cases ho'
              rw [hp] at hp'
              cases hp'
              exact absurd hh' hh

/-- C5 witness: a POST carrying `Origin: https://evil.example` against a
server at `app.example` is rejected with the 403, and the same POST with a
matching origin passes. -/
theorem ensureSameOrigin_spec_witness :
    ensureSameOrigin
        (fun s => if s = "https://evil.example" then some ⟨"evil.example"⟩ else none)
        { method := "POST", headers := [("origin", "https://evil.example")],
          host := "app.example", cookies := [] } = some invalidOriginResponse ∧
    ensureSameOrigin
        (fun s => if s = "https://app.example" then some ⟨"app.example"⟩ else none)
        { method := "POST", headers := [("origin", "https://app.example")],
          host := "app.example", cookies := [] } = none := by
  constructor
  · exact (((ensureSameOrigin_spec _ _).2 (by decide) (by decide) (by decide)).1.mpr
      (Or.inr (Or.inr ⟨"https://evil.example", ⟨"evil.example"⟩, by decide, by decide,
        by decide⟩))).1
  · exact ((ensureSameOrigin_spec _ _).2 (by decide) (by decide) (by decide)).2.mpr
      ⟨"https://app.example", ⟨"app.example"⟩, by decide, by decide, by decide⟩

/-- C8 counterexample: with the fixed development pepper, the session-token
hash of the raw token `"a"` is not the SHA-256 digest of the raw token
concatenated directly with the pepper — the code inserts a `":"` separator
between the two. -/
theorem hashSessionToken_not_plain_concat :
    hashSessionToken "dev-only-pepper-change-me" "a" ≠
      sha256Hex ("a" ++ "dev-only-pepper-change-me") := by
  decide

/-- C8 amended: `hashSessionToken(rawToken)` is the hex SHA-256 digest of
`rawToken`, a `":"` separator, and the server pepper; the pepper comes from
the required server secret when set (trimmed), production fails fast when
it is unset (or blank), and a fixed development value is used otherwise. -/
theorem hashSessionToken_spec :
    (∀ pepper rawToken,
      hashSessionToken pepper rawToken = sha256Hex (rawToken ++ ":" ++ pepper)) ∧
    (∀ s : String, strTrim s ≠ "" →
      ∀ isProduction, getTokenPepper (some s) isProduction = Except.ok (strTrim s)) ∧
    (∀ envPepper : Option String,
      (envPepper = none ∨ envPepper.map strTrim = some "") →
      getTokenPepper envPepper true =
          Except.error "AUTH_TOKEN_PEPPER must be set in production." ∧
        getTokenPepper envPepper false = Except.ok "dev-only-pepper-change-me") := by
  refine ⟨fun pepper rawToken => rfl, ?_, ?_⟩
  · intro s hs isProduction
    simp [getTokenPepper, hs]
  · intro envPepper h
    rcases h with h | h
    · subst h
      constructor <;> rfl
    · cases envPepper with
      | none => simp at h
      | some s =>
        have htrim : strTrim s = "" := by simpa using h
        constructor <;> simp [getTokenPepper, htrim]

/-- C8 amended witness: concrete instances of the three clauses, evaluated
on the development pepper and the raw token `"tok"`. -/
theorem hashSessionToken_spec_witness :
    hashSessionToken "pep" "tok" = sha256Hex ("tok" ++ ":" ++ "pep") ∧
    getTokenPepper (some " pep ") true = Except.ok "pep" ∧
    getTokenPepper none true =
        Except.error "AUTH_TOKEN_PEPPER must be set in production." ∧
    getTokenPepper none false = Except.ok "dev-only-pepper-change-me" := by
  refine ⟨hashSessionToken_spec.1 "pep" "tok", ?_, ?_, ?_⟩
  · have h := hashSessionToken_spec.2.1 " pep " (by decide) true
    simpa using h
  · exact (hashSessionToken_spec.2.2 none (Or.inl rfl)).1
  · exact (hashSessionToken_spec.2.2 none (Or.inl rfl)).2

/-- C10: `revoked_at` is write-once — each of the three revocation
operations (and session insertion) leaves a row whose `revoked_at` is
already set completely unchanged, preserving the original timestamp. -/
theorem revokedAt_write_once (pepper rawToken : String) (db : Db)
    (now sessionId userId : Nat) (i : Nat) (s : DbSession) (t : Nat)
    (hs : db.sessions[i]? = some s) (ht : s.revokedAt = some t) :
    (revokeSessionByToken pepper db now rawToken).sessions[i]? = some s ∧
    (revokeSessionById db now sessionId).sessions[i]? = some s ∧
    (revokeSessionsForUser db now userId).sessions[i]? = some s ∧
    (∀ cfg req freshToken newUserId,
      (createSession cfg pepper db now newUserId req freshToken).2.sessions[i]? =
        some s) := by
  have hrev : (s.revokedAt == none) = false := by
    rw [ht]; rfl
  have hlt : i < db.sessions.length := by
    by_contra hcon
    rw [List.getElem?_eq_none (Nat.le_of_not_lt hcon)] at hs
    cases hs
  refine ⟨?_, ?_, ?_, ?_⟩
  · unfold revokeSessionByToken
    simp [List.getElem?_map, hs, hrev]
    intro _ h2
    rw [h2] at ht
    cases ht
  · unfold revokeSessionById
    simp [List.getElem?_map, hs, hrev]
    intro _ h2
    rw [h2] at ht
    cases ht
  · unfold revokeSessionsForUser
    simp [List.getElem?_map, hs, hrev]
    intro _ h2
    rw [h2] at ht
    cases ht
  · intro cfg req freshToken newUserId
    unfold createSession
    simp only
    rw [List.getElem?_append, if_pos hlt]
    exact hs

/-- C10 witness: a session revoked at time 5 keeps that timestamp across
all three revocation operations and an insertion. -/
theorem revokedAt_write_once_witness :
    (revokeSessionByToken "p"
        { users := [],
          sessions := [({ id := 1, userId := 1, tokenHash := "h",
                          expiresAt := 9, revokedAt := some 5, ipAddress := none,
                          userAgent := none } : DbSession)],
          roles := [], permissions := [], userRoles := [], rolePermissions := [],
          auditLogs := [], nextSessionId := 2 }
        7 "tok").sessions[0]? =
      some ({ id := 1, userId := 1, tokenHash := "h", expiresAt := 9,
              revokedAt := some 5, ipAddress := none,
              userAgent := none } : DbSession) :=
  (revokedAt_write_once "p" "tok" _ 7 1 1 0
    ({ id := 1, userId := 1, tokenHash := "h", expiresAt := 9,
       revokedAt := some 5, ipAddress := none, userAgent := none } : DbSession) 5
    (by decide) rfl).1

/-- The row filter of the resolution query, in propositional form: a row
passes iff its hash matches and it is unrevoked, unexpired, and owned by an
active user. Uniqueness of user ids (the `users` primary key) aligns the
`find?`-based join with the existential. -/
theorem sessionRowLive_iff (db : Db) (now : Nat) (tokenHash : String)
    (s : DbSession) (huid : (db.users.map DbUser.id).Nodup) :
    sessionRowLive db now tokenHash s = true ↔
      s.tokenHash = tokenHash ∧ s.revokedAt = none ∧ now < s.expiresAt ∧
        ∃ u ∈ db.users, u.id = s.userId ∧ u.isActive = true := by
  unfold sessionRowLive findUser
  constructor
  · intro hl
    simp only [Bool.and_eq_true, beq_iff_eq, decide_eq_true_eq] at hl
    obtain ⟨⟨⟨h1, h2⟩, h3⟩, h4⟩ := hl
    refine ⟨h1, h2, h3, ?_⟩
    cases hf : db.users.find? (fun u => u.id == s.userId) with
    | none =>
      rw [hf] at h4
      cases h4
    | some u =>
      rw [hf] at h4
      exact ⟨u, List.mem_of_find?_eq_some hf,
        by simpa using List.find?_some hf, h4⟩
  · rintro ⟨h1, h2, h3, u, hu, hid, hact⟩
    have hs : (db.users.find? (fun v => v.id == s.userId)).isSome :=
      List.find?_isSome.mpr ⟨u, hu, by simp [hid]⟩
    cases hf : db.users.find? (fun v => v.id == s.userId) with
    | none =>
      rw [hf] at hs
      cases hs
    | some v =>
      have hvid : v.id = s.userId := by simpa using List.find?_some hf
      have hvu : v = u :=
        List.inj_on_of_nodup_map huid (List.mem_of_find?_eq_some hf) hu
          (by rw [hvid, hid])
      simp only [Bool.and_eq_true, beq_iff_eq, decide_eq_true_eq]
      refine ⟨⟨⟨h1, h2⟩, h3⟩, ?_⟩
      rw [hvu]
      exact hact

/-- C1: for a request presenting a raw token, `getAuthContextFromRequest`
(the spec's `resolveContext`) is non-null exactly when some stored session
matches the token's hash and satisfies `revoked_at IS NULL AND expires_at >
now`, with its owning user active — and null exactly when every session
matching the hash is revoked, expired, or owned by no active user (hence in
particular when no stored hash matches at all). -/
theorem resolveContext_null_iff (cfg : AuthConfig) (pepper : String)
    (db : Db) (now : Nat) (req : RequestModel) (tok : String)
    (htok : cookieGet req cfg.sessionCookieName = some tok) (hne : tok ≠ "")
    (huid : (db.users.map DbUser.id).Nodup) :
    ((getAuthContextFromRequest cfg pepper db now req).isSome = true ↔
      ∃ s ∈ db.sessions, s.tokenHash = hashSessionToken pepper tok ∧
        s.revokedAt = none ∧ now < s.expiresAt ∧
        ∃ u ∈ db.users, u.id = s.userId ∧ u.isActive = true) ∧
    (getAuthContextFromRequest cfg pepper db now req = none ↔
      ∀ s ∈ db.sessions, s.tokenHash = hashSessionToken pepper tok →
        s.revokedAt ≠ none ∨ s.expiresAt ≤ now ∨
          ∀ u ∈ db.users, u.id = s.userId → u.isActive = false) := by
  have hbe : (tok == "") = false := by simp [hne]
  have hmain : (getAuthContextFromRequest cfg pepper db now req).isSome = true ↔
      ∃ s ∈ db.sessions, s.tokenHash = hashSessionToken pepper tok ∧
        s.revokedAt = none ∧ now < s.expiresAt ∧
        ∃ u ∈ db.users, u.id = s.userId ∧ u.isActive = true := by
    unfold getAuthContextFromRequest
    rw [htok]
    simp only [hbe, Bool.false_eq_true, if_false]
    cases hf : db.sessions.find? (sessionRowLive db now (hashSessionToken pepper tok)) with
    | none =>
      simp only [Option.isSome_none, Bool.false_eq_true, false_iff]
      rintro ⟨s, hsmem, h1, h2, h3, hu⟩
      have := List.find?_eq_none.mp hf s hsmem
      exact this ((sessionRowLive_iff db now _ s huid).mpr ⟨h1, h2, h3, hu⟩)
    | some s =>
      have hlive := List.find?_some hf
      have hsmem := List.mem_of_find?_eq_some hf
      obtain ⟨h1, h2, h3, u, hu, hid, hact⟩ :=
        (sessionRowLive_iff db now _ s huid).mp hlive
      have hfu : (findUser db s.userId).isSome := by
        unfold findUser
        exact List.find?_isSome.mpr ⟨u, hu, by simp [hid]⟩
      constructor
      · intro _
        exact ⟨s, hsmem, h1, h2, h3, u, hu, hid, hact⟩
      · intro _
        cases hfind : findUser db s.userId with
        | none => rw [hfind] at hfu; cases hfu
        | some v => simp [hfind]
  constructor
  · exact hmain
  · rw [← Option.not_isSome_iff_eq_none, Bool.not_eq_true,
      ← Bool.not_eq_true (getAuthContextFromRequest cfg pepper db now req).isSome]
    rw [hmain]
    constructor
    · intro hno s hsmem hhash
      by_contra hcon
      push_neg at hcon
      obtain ⟨hrev, hexp, u, hu, hid, hact⟩ := hcon
      exact hno ⟨s, hsmem, hhash, by simpa using hrev, by
        exact Nat.lt_of_not_le (by simpa using hexp), u, hu, hid,
        by simpa using hact⟩
    · rintro hall ⟨s, hsmem, h1, h2, h3, u, hu, hid, hact⟩
      rcases hall s hsmem h1 with h | h | h
      · exact h h2
      · exact absurd h3 (Nat.not_lt_of_le h)
      · rw [h u hu hid] at hact
        cases hact

/-- C1 witness: in the fixture store the plain user's live session resolves
to a context, and the same request against a time past expiry resolves to
null. -/
theorem resolveContext_null_iff_witness :
    (getAuthContextFromRequest defaultAuthConfig fxPepper fxDb 500 fxReqBob).isSome
        = true ∧
    getAuthContextFromRequest defaultAuthConfig fxPepper fxDb 2000000 fxReqBob
        = none := by
  constructor
  · exact (resolveContext_null_iff defaultAuthConfig fxPepper fxDb 500 fxReqBob
      "tokB" (by decide) (by decide) (by decide)).1.mpr
      ⟨{ id := 2, userId := 2, tokenHash := hashSessionToken fxPepper "tokB",
         expiresAt := 2000000, revokedAt := none, ipAddress := none,
         userAgent := none },
       by decide, rfl, rfl, by decide,
       { id := 2, email := "bob@x.com", fullName := some "Bob",
         isActive := true, passwordHash := "hb" },
       by decide, rfl, rfl⟩
  · exact (resolveContext_null_iff defaultAuthConfig fxPepper fxDb 2000000 fxReqBob
      "tokB" (by decide) (by decide) (by decide)).2.mpr
      (by
        intro s hsmem _
        fin_cases hsmem
        · exact Or.inr (Or.inl (by decide))
        · exact Or.inr (Or.inl (by decide)))

/-- `Map.set` followed by `Map.get` on the same key yields the value. -/
theorem bucketFind_bucketSet (m : BucketMap) (key : String) (b : Bucket) :
    bucketFind (bucketSet m key b) key = some b := by
  induction m with
  | nil => simp [bucketFind, bucketSet]
  | cons e m ih =>
    by_cases he : (e.1 == key) = true
    · simp [bucketFind, bucketSet, List.any_cons, he, List.find?_cons]
      have he2 : e.1 = key := by simpa using he
      exact ⟨key, by simp [he2]⟩
    · by_cases hm : (m.any fun x => x.1 == key) = true
      · have ih2 : bucketFind (m.map (fun e => if e.1 == key then (key, b) else e)) key = some b := by
          have := ih
          unfold bucketSet at this
          rwa [if_pos hm] at this
        unfold bucketSet
        have hcond : ((e :: m).any fun x => x.1 == key) = true := by
          simp [List.any_cons, hm]
        rw [if_pos hcond]
        rw [List.map_cons]
        unfold bucketFind
        rw [List.find?_cons]
        simp only [he, Bool.false_eq_true, if_false]
        exact ih2
      · have ih2 : bucketFind (m ++ [(key, b)]) key = some b := by
          have := ih
          unfold bucketSet at this
          rwa [if_neg (by simp [hm])] at this
        unfold bucketSet
        have hcond : ¬ (((e :: m).any fun x => x.1 == key) = true) := by
          simp [List.any_cons, he, hm]
        rw [if_neg hcond]
        unfold bucketFind
        rw [List.cons_append, List.find?_cons]
        simp only [he, Bool.false_eq_true, if_false]
        exact ih2

/-- `Map.delete` followed by `Map.get` on the same key yields nothing. -/
theorem bucketFind_bucketDelete (m : BucketMap) (key : String) :
    bucketFind (bucketDelete m key) key = none := by
  unfold bucketFind bucketDelete
  rw [Option.map_eq_none', List.find?_eq_none]
  intro e he
  have h2 := (List.mem_filter.mp he).2
  simp only [Bool.not_eq_true'] at h2
  simp [h2]

/-- A failure recorded inside the live window, while the count is below the
threshold, increments the count and leaves the bucket unblocked. -/
theorem registerLoginFailure_increments (m : BucketMap) (key : String)
    (n w t : Nat) (hb : bucketFind m key = some ⟨n, w, 0⟩)
    (hwin : t - w ≤ WINDOW_MS) (hn : n + 1 < MAX_ATTEMPTS) :
    bucketFind (registerLoginFailure m t key) key = some ⟨n + 1, w, 0⟩ := by
  unfold registerLoginFailure
  have h1 : ¬ (WINDOW_MS < t - w) := Nat.not_lt.mpr hwin
  have h2 : ¬ (MAX_ATTEMPTS ≤ n + 1) := Nat.not_le.mpr hn
  simp only [hb]
  rw [if_neg h1]
  simp only [if_neg h2]
  exact bucketFind_bucketSet m key ⟨n + 1, w, 0⟩

/-- The failure that brings the count to the threshold sets
`blockedUntil = now + BLOCK_MS`. -/
theorem registerLoginFailure_blocks (m : BucketMap) (key : String)
    (n w t : Nat) (hb : bucketFind m key = some ⟨n, w, 0⟩)
    (hwin : t - w ≤ WINDOW_MS) (hn : n + 1 = MAX_ATTEMPTS) :
    bucketFind (registerLoginFailure m t key) key =
      some ⟨MAX_ATTEMPTS, w, t + BLOCK_MS⟩ := by
  unfold registerLoginFailure
  have h1 : ¬ (WINDOW_MS < t - w) := Nat.not_lt.mpr hwin
  have h2 : MAX_ATTEMPTS ≤ n + 1 := Nat.le_of_eq hn.symm
  simp only [hb]
  rw [if_neg h1]
  simp only [if_pos h2, hn]
  exact bucketFind_bucketSet m key ⟨MAX_ATTEMPTS, w, t + BLOCK_MS⟩

/-- Folding failures that stay inside the live window and below the
threshold accumulates the count without blocking. -/
theorem applyFailuresAt_below_threshold (key : String) (ts : List Nat) :
    ∀ (m : BucketMap) (n w : Nat),
      bucketFind m key = some ⟨n, w, 0⟩ →
      (∀ t ∈ ts, t - w ≤ WINDOW_MS) →
      n + ts.length < MAX_ATTEMPTS →
      bucketFind (applyFailuresAt key ts m) key = some ⟨n + ts.length, w, 0⟩ := by
  induction ts with
  | nil =>
    intro m n w hb _ _
    simpa [applyFailuresAt] using hb
  | cons t ts ih =>
    intro m n w hb hw hn
    have hlen : n + (t :: ts).length = n + 1 + ts.length := by
      simp [List.length_cons]; omega
    have hstep : bucketFind (registerLoginFailure m t key) key =
        some ⟨n + 1, w, 0⟩ :=
      registerLoginFailure_increments m key n w t hb
        (hw t (List.mem_cons_self t ts)) (by omega)
    have htail := ih (registerLoginFailure m t key) (n + 1) w hstep
      (fun u hu => hw u (List.mem_cons_of_mem t hu)) (by omega)
    have hfold : applyFailuresAt key (t :: ts) m =
        applyFailuresAt key ts (registerLoginFailure m t key) := rfl
    rw [hfold, htail, hlen]

/-- C6: starting from no bucket for the key, exactly eight failures inside
one 10-minute window leave the bucket at the threshold with
`blockedUntil = t8 + 10min`; while that block lasts, `getLoginThrottleState`
denies with a positive `retryAfterSeconds`, and one `registerLoginSuccess`
deletes the bucket so the very next check allows again. -/
theorem loginThrottle_blocks_after_eight (m : BucketMap) (key : String)
    (t1 : Nat) (rest : List Nat) (t8 tc tc2 : Nat)
    (h0 : bucketFind m key = none)
    (hlen : rest.length = 6)
    (hw : ∀ t ∈ rest, t - t1 ≤ WINDOW_MS)
    (hw8 : t8 - t1 ≤ WINDOW_MS)
    (htc : tc < t8 + BLOCK_MS) :
    bucketFind (applyFailuresAt key (t1 :: rest ++ [t8]) m) key =
        some ⟨MAX_ATTEMPTS, t1, t8 + BLOCK_MS⟩ ∧
    (getLoginThrottleState (applyFailuresAt key (t1 :: rest ++ [t8]) m) tc
        key).1 = ⟨false, (t8 + BLOCK_MS - tc + 999) / 1000⟩ ∧
    0 < (t8 + BLOCK_MS - tc + 999) / 1000 ∧
    (getLoginThrottleState
        (registerLoginSuccess (applyFailuresAt key (t1 :: rest ++ [t8]) m) key)
        tc2 key).1 = ⟨true, 0⟩ := by
  have hstep1 : bucketFind (registerLoginFailure m t1 key) key =
      some ⟨1, t1, 0⟩ := by
    unfold registerLoginFailure
    rw [h0]
    exact bucketFind_bucketSet m key ⟨1, t1, 0⟩
  have hmid : bucketFind (applyFailuresAt key rest (registerLoginFailure m t1 key))
      key = some ⟨1 + rest.length, t1, 0⟩ :=
    applyFailuresAt_below_threshold key rest _ 1 t1 hstep1 hw
      (by rw [hlen]; decide)
  rw [hlen] at hmid
  have hlast : bucketFind
      (registerLoginFailure
        (applyFailuresAt key rest (registerLoginFailure m t1 key)) t8 key) key =
      some ⟨MAX_ATTEMPTS, t1, t8 + BLOCK_MS⟩ :=
    registerLoginFailure_blocks _ key 7 t1 t8 hmid hw8 (by decide)
  have hfold : applyFailuresAt key (t1 :: rest ++ [t8]) m =
      registerLoginFailure
        (applyFailuresAt key rest (registerLoginFailure m t1 key)) t8 key := by
    simp [applyFailuresAt, List.foldl_append]
  rw [hfold]
  refine ⟨hlast, ?_, ?_, ?_⟩
  · unfold getLoginThrottleState
    simp only [hlast]
    rw [if_pos htc]
  · have h1 : 1000 ≤ t8 + BLOCK_MS - tc + 999 := by omega
    exact Nat.div_pos h1 (by decide)
  · unfold getLoginThrottleState
    unfold registerLoginSuccess
    simp only [bucketFind_bucketDelete]

/-- C6 witness: eight immediate failures for the key `1.2.3.4:x@y.com`
block it for ten minutes, and one recorded success unblocks it. -/
theorem loginThrottle_blocks_after_eight_witness :
    bucketFind (applyFailuresAt "1.2.3.4:x@y.com" (0 :: [0, 0, 0, 0, 0, 0] ++ [0])
        []) "1.2.3.4:x@y.com" = some ⟨MAX_ATTEMPTS, 0, 0 + BLOCK_MS⟩ ∧
    (getLoginThrottleState
        (applyFailuresAt "1.2.3.4:x@y.com" (0 :: [0, 0, 0, 0, 0, 0] ++ [0]) []) 5
        "1.2.3.4:x@y.com").1 = ⟨false, (0 + BLOCK_MS - 5 + 999) / 1000⟩ ∧
    0 < (0 + BLOCK_MS - 5 + 999) / 1000 ∧
    (getLoginThrottleState
        (registerLoginSuccess
          (applyFailuresAt "1.2.3.4:x@y.com" (0 :: [0, 0, 0, 0, 0, 0] ++ [0]) [])
          "1.2.3.4:x@y.com") 5 "1.2.3.4:x@y.com").1 = ⟨true, 0⟩ :=
  loginThrottle_blocks_after_eight [] "1.2.3.4:x@y.com" 0 [0, 0, 0, 0, 0, 0] 0 5 5
    rfl rfl (by decide) (by decide) (by decide)

/-- C9 counterexample: a POST to the logout route with no `Origin` header
(even one carrying a valid session cookie) is answered with the origin
check's 403, not 200 — the handler is not "always 200". -/
theorem logoutPOST_not_always_200 :
    (logoutPOST fxParseUrl defaultAuthConfig fxPepper fxDb 500
        { method := "POST", headers := [], host := "app.example",
          cookies := [("stocks_hunter_session", "tokA")] }).1.status = 403 ∧
    (403 : Nat) ≠ 200 := by
  constructor
  · rfl
  · decide

/-- C9 amended: when the same-origin check fails, `POST /auth/logout`
returns that 403 untouched; when it passes, the handler revokes the
session named by the cookie (a no-op when the cookie is absent or empty),
clears the session and CSRF cookies, and returns 200. -/
theorem logoutPOST_spec (parseUrl : String → Option UrlModel)
    (cfg : AuthConfig) (pepper : String) (db : Db) (now : Nat)
    (req : RequestModel) :
    (∀ e, ensureSameOrigin parseUrl req = some e →
      logoutPOST parseUrl cfg pepper db now req = (e, db)) ∧
    (ensureSameOrigin parseUrl req = none →
      (logoutPOST parseUrl cfg pepper db now req).1.status = 200 ∧
      (logoutPOST parseUrl cfg pepper db now req).1.cookies =
        [{ name := cfg.sessionCookieName, value := "", httpOnly := true,
           maxAge := some 0, expires := none },
         { name := cfg.csrfCookieName, value := "", httpOnly := false,
           maxAge := some 0, expires := none }] ∧
      (∀ tok, cookieGet req cfg.sessionCookieName = some tok → tok ≠ "" →
        (logoutPOST parseUrl cfg pepper db now req).2.sessions =
          (revokeSessionByToken pepper db now tok).sessions) ∧
      ((cookieGet req cfg.sessionCookieName = none ∨
          cookieGet req cfg.sessionCookieName = some "") →
        (logoutPOST parseUrl cfg pepper db now req).2.sessions = db.sessions)) := by
  constructor
  · intro e he
    unfold logoutPOST
    rw [he]
  · intro horigin
    unfold logoutPOST
    rw [horigin]
    refine ⟨rfl, rfl, ?_, ?_⟩
    · intro tok htok hne
      have hbe : (tok == "") = false := by simp [hne]
      simp only [htok, hbe, Bool.false_eq_true, if_false]
      rfl
    · intro hcook
      rcases hcook with h | h <;> simp only [h] <;> rfl

/-- C9 amended witness: the fixture same-origin POST logs out with a 200
and revokes exactly the cookie's session; the cross-origin variant gets
the 403 back unchanged. -/
theorem logoutPOST_spec_witness :
    (logoutPOST fxParseUrl defaultAuthConfig fxPepper fxDb 500 fxReqAlice).1.status
        = 200 ∧
    (logoutPOST fxParseUrl defaultAuthConfig fxPepper fxDb 500 fxReqAlice).2.sessions
        = (revokeSessionByToken fxPepper fxDb 500 "tokA").sessions ∧
    logoutPOST fxParseUrl defaultAuthConfig fxPepper fxDb 500
        { method := "POST", headers := [], host := "app.example", cookies := [] } =
      (invalidOriginResponse, fxDb) := by
  have h := (logoutPOST_spec fxParseUrl defaultAuthConfig fxPepper fxDb 500
    fxReqAlice).2 (by decide)
  refine ⟨h.1, h.2.2.1 "tokA" (by decide) (by decide), ?_⟩
  exact (logoutPOST_spec fxParseUrl defaultAuthConfig fxPepper fxDb 500
    { method := "POST", headers := [], host := "app.example", cookies := [] }).1
    invalidOriginResponse (by decide)

/-- The origin guard only ever produces the fixed 403 body. -/
theorem ensureSameOrigin_some_eq (parseUrl : String → Option UrlModel)
    (req : RequestModel) (e : HttpResponse)
    (h : ensureSameOrigin parseUrl req = some e) : e = invalidOriginResponse := by
  unfold ensureSameOrigin at h
  by_cases hm : (req.method == "GET" || req.method == "HEAD" ||
      req.method == "OPTIONS") = true
  · rw [if_pos hm] at h
    cases h
  · rw [if_neg hm] at h
    cases hh : getHeader req "origin" with
    | none =>
      simp only [hh] at h
      cases h
      rfl
    | some o =>
      simp only [hh] at h
      cases hp : parseUrl o with
      | none =>
        simp only [hp] at h
        cases h
        rfl
      | some u =>
        simp only [hp] at h
        rw [if_neg] at h
        · cases h
          rfl
        · intro hhost
          rw [if_pos hhost] at h
          cases h

/-- After `revokeSessionsForUser`, no session of that user is unrevoked. -/
theorem revokeSessionsForUser_all (db : Db) (now userId : Nat) :
    ∀ s ∈ (revokeSessionsForUser db now userId).sessions,
      s.userId = userId → s.revokedAt ≠ none := by
  intro s hs
  unfold revokeSessionsForUser at hs
  simp only [List.mem_map] at hs
  obtain ⟨s0, _, heq⟩ := hs
  by_cases hc : (s0.userId == userId && s0.revokedAt == none) = true
  · rw [if_pos hc] at heq
    rw [← heq]
    intro _ h
    cases h
  · rw [if_neg hc] at heq
    rw [← heq]
    intro huid hnone
    exact hc (by simp [huid, hnone])

/-- When every session matching the presented cookie's hash is revoked,
resolution yields null. -/
theorem resolveContext_none_of_revoked (cfg : AuthConfig) (pepper : String)
    (db : Db) (now : Nat) (req : RequestModel)
    (hall : ∀ tok, cookieGet req cfg.sessionCookieName = some tok →
      ∀ s ∈ db.sessions, s.tokenHash = hashSessionToken pepper tok →
        s.revokedAt ≠ none) :
    getAuthContextFromRequest cfg pepper db now req = none := by
  unfold getAuthContextFromRequest
  cases hcook : cookieGet req cfg.sessionCookieName with
  | none => rfl
  | some tok =>
    have hfind : db.sessions.find?
        (sessionRowLive db now (hashSessionToken pepper tok)) = none := by
      rw [List.find?_eq_none]
      intro s hs hlive
      unfold sessionRowLive at hlive
      simp only [Bool.and_eq_true, beq_iff_eq] at hlive
      exact hall tok hcook s hs hlive.1.1.1 hlive.1.1.2
    by_cases hbe : (tok == "") = true
    · simp only [hbe, if_true]
    · simp only [hbe, Bool.false_eq_true, if_false, hfind]

/-- When every session matching the presented cookie's hash is revoked,
`requireAuth` answers the uniform 401. -/
theorem requireAuth_401_of_revoked (cfg : AuthConfig) (pepper : String)
    (db : Db) (now : Nat) (req : RequestModel)
    (hall : ∀ tok, cookieGet req cfg.sessionCookieName = some tok →
      ∀ s ∈ db.sessions, s.tokenHash = hashSessionToken pepper tok →
        s.revokedAt ≠ none) :
    requireAuth cfg pepper db now req =
      Except.error (jsonError 401 "Authentication required.") := by
  unfold requireAuth
  rw [resolveContext_none_of_revoked cfg pepper db now req hall]

/-- The tail of the user-update handler answers 200, and when it runs with
`isActive=false` or a new password hash it leaves no unrevoked session for
the target user. -/
theorem finishAdminUserUpdate_result (db : Db) (now : Nat)
    (req : RequestModel) (auth : AuthContext) (userId : Nat)
    (payload : UpdateUserPayload) (passwordHash : Option String)
    (htrig : (payload.isActive == some false || passwordHash.isSome) = true) :
    (finishAdminUserUpdate db now req auth userId payload passwordHash).1 =
      jsonOk ∧
    ∀ s ∈ (finishAdminUserUpdate db now req auth userId payload
        passwordHash).2.sessions,
      s.userId = userId → s.revokedAt ≠ none := by
  constructor
  · rfl
  · intro s hs
    simp only [finishAdminUserUpdate] at hs
    rw [if_pos htrig] at hs
    exact revokeSessionsForUser_all _ now userId s hs

/-- C2: whenever `PATCH /admin/users/:id` succeeds (status 200) on a
payload that sets `isActive=false` or supplies a password, every session
of the target user ends up revoked, and a later authenticated request
presenting a token whose hash matches only that user's sessions is refused
with the uniform 401. -/
theorem adminUsersPATCH_locks_out (parseUrl : String → Option UrlModel)
    (cfg : AuthConfig) (pepper : String) (bcryptHash : String → String)
    (db : Db) (now : Nat) (req : RequestModel) (payload : UpdateUserPayload)
    (uid : Nat) (res : HttpResponse × Db)
    (hres : adminUsersPATCH parseUrl cfg pepper bcryptHash db now req
      (some uid) payload = res)
    (hok : res.1.status = 200)
    (htrig : payload.isActive = some false ∨ payload.password ≠ none) :
    (∀ s ∈ res.2.sessions, s.userId = uid → s.revokedAt ≠ none) ∧
    (∀ (now2 : Nat) (req2 : RequestModel),
      (∀ tok, cookieGet req2 cfg.sessionCookieName = some tok →
        ∀ s ∈ res.2.sessions,
          s.tokenHash = hashSessionToken pepper tok → s.userId = uid) →
      requireAuth cfg pepper res.2 now2 req2 =
        Except.error (jsonError 401 "Authentication required.")) := by
  suffices hmain : ∀ s ∈ res.2.sessions, s.userId = uid → s.revokedAt ≠ none by
    refine ⟨hmain, ?_⟩
    intro now2 req2 hmatch
    exact requireAuth_401_of_revoked cfg pepper res.2 now2 req2
      (fun tok hc s hs hh => hmain s hs (hmatch tok hc s hs hh))
  unfold adminUsersPATCH at hres
  cases horig : ensureSameOrigin parseUrl req with
  | some e =>
    simp only [horig] at hres
    rw [← hres] at hok
    rw [ensureSameOrigin_some_eq parseUrl req e horig] at hok
    simp [invalidOriginResponse, jsonError] at hok
  | none =>
    simp only [horig] at hres
    cases hauth : requireAuth cfg pepper db now req with
    | error e =>
      simp only [hauth] at hres
      rw [← hres] at hok
      have he401 : e = jsonError 401 "Authentication required." := by
        unfold requireAuth at hauth
        cases hctx : getAuthContextFromRequest cfg pepper db now req with
        | none =>
          simp only [hctx] at hauth
          injection hauth with h
          exact h.symm
        | some c =>
          simp only [hctx] at hauth
          cases hauth
      rw [he401] at hok
      simp [jsonError] at hok
    | ok auth =>
      simp only [hauth] at hres
      cases hperm : requirePermission auth ["admin:users:manage"] with
      | some e =>
        simp only [hperm] at hres
        rw [← hres] at hok
        have he403 : e = jsonError 403 "Forbidden." := by
          unfold requirePermission at hperm
          by_cases h1 : isAdmin auth = true
          · rw [if_pos h1] at hperm
            cases hperm
          · rw [if_neg h1] at hperm
            by_cases h2 : hasPermission auth ["admin:users:manage"] = true
            · rw [if_pos h2] at hperm
              cases hperm
            · rw [if_neg h2] at hperm
              injection hperm with h
              exact h.symm
        rw [he403] at hok
        simp [jsonError] at hok
      | none =>
        simp only [hperm] at hres
        by_cases hval : updateUserPayloadValid payload = true
        · simp only [hval, Bool.not_true, Bool.false_eq_true, if_false] at hres
          cases hpw : payload.password with
          | some p =>
            simp only [hpw] at hres
            by_cases hlen : 0 < p.length
            · rw [if_pos hlen] at hres
              by_cases hstrong : validateStrongPassword p = true
              · simp only [hstrong, Bool.not_true, Bool.false_eq_true,
                  if_false] at hres
                rw [← hres]
                exact (finishAdminUserUpdate_result db now req auth uid payload
                  (some (bcryptHash p)) (by simp)).2
              · simp only [Bool.not_eq_true] at hstrong
                simp only [hstrong, Bool.not_false, if_true] at hres
                rw [← hres] at hok
                simp [jsonError] at hok
            · have hlen10 : 10 ≤ p.length := by
                unfold updateUserPayloadValid at hval
                rw [hpw] at hval
                simp only [Bool.and_eq_true, decide_eq_true_eq] at hval
                exact hval.2.1
              exact absurd (by omega) hlen
          | none =>
            simp only [hpw] at hres
            rcases htrig with hia | hpne
            · rw [← hres]
              exact (finishAdminUserUpdate_result db now req auth uid payload
                none (by simp [hia])).2
            · exact absurd hpw hpne
        · simp only [Bool.not_eq_true] at hval
          simp only [hval, Bool.not_false, if_true] at hres
          rw [← hres] at hok
          simp [jsonError] at hok

/-- C2 witness: the fixture admin deactivates user 2 (`isActive:false`)
over a same-origin PATCH; the handler answers 200, user 2's session ends
up revoked, and user 2's next request with their old token gets the 401. -/
theorem adminUsersPATCH_locks_out_witness :
    (∀ s ∈ (adminUsersPATCH fxParseUrl defaultAuthConfig fxPepper
        (fun p => p) fxDb 500 fxReqAlice (some 2)
        { fullName := none, isActive := some false,
          password := none }).2.sessions,
      s.userId = 2 → s.revokedAt ≠ none) ∧
    requireAuth defaultAuthConfig fxPepper
        (adminUsersPATCH fxParseUrl defaultAuthConfig fxPepper
          (fun p => p) fxDb 500 fxReqAlice (some 2)
          { fullName := none, isActive := some false, password := none }).2
        600 fxReqBob =
      Except.error (jsonError 401 "Authentication required.") := by
  have h := adminUsersPATCH_locks_out fxParseUrl defaultAuthConfig fxPepper
    (fun p => p) fxDb 500 fxReqAlice
    { fullName := none, isActive := some false, password := none } 2 _ rfl
    (by decide) (Or.inl rfl)
  refine ⟨h.1, h.2 600 fxReqBob ?_⟩
  intro tok hc
  have htok : tok = "tokB" := by
    have h2 := hc
    simp [cookieGet, fxReqBob, defaultAuthConfig] at h2
    exact h2.symm
  subst htok
  decide

/-- Inversion of a successful resolution: the context comes from the
cookie's token, a live session row found by its hash, and that row's
owner. -/
theorem resolveContext_some_inv (cfg : AuthConfig) (pepper : String)
    (db : Db) (now : Nat) (req : RequestModel) (context : AuthContext)
    (hctx : getAuthContextFromRequest cfg pepper db now req = some context) :
    ∃ s u, cookieGet req cfg.sessionCookieName = some context.sessionToken ∧
      db.sessions.find?
        (sessionRowLive db now (hashSessionToken pepper context.sessionToken)) =
          some s ∧
      findUser db s.userId = some u ∧
      context = mapAuthContext db u s context.sessionToken := by
  unfold getAuthContextFromRequest at hctx
  cases hcook : cookieGet req cfg.sessionCookieName with
  | none =>
    simp only [hcook] at hctx
    cases hctx
  | some tok =>
    simp only [hcook] at hctx
    by_cases hbe : (tok == "") = true
    · simp only [hbe, if_true] at hctx
      cases hctx
    · simp only [hbe, Bool.false_eq_true, if_false] at hctx
      cases hfind : db.sessions.find?
          (sessionRowLive db now (hashSessionToken pepper tok)) with
      | none =>
        simp only [hfind] at hctx
        cases hctx
      | some s =>
        simp only [hfind] at hctx
        cases hfu : findUser db s.userId with
        | none =>
          simp only [hfu] at hctx
          cases hctx
        | some u =>
          simp only [hfu] at hctx
          injection hctx with h
          subst h
          exact ⟨s, u, rfl, hfind, hfu, rfl⟩

/-- C7: after `rotateSession`, the raw token the context was resolved from
resolves to null (its session is revoked) while the fresh raw token
resolves to a valid context for the same user id — under the store's
schema invariants (unique token hashes, insertion ids above all existing
ids) and freshness of the generated token. -/
theorem rotateSession_spec (cfg : AuthConfig) (pepper : String) (db : Db)
    (now : Nat) (req : RequestModel) (context : AuthContext)
    (freshToken : String)
    (hctx : getAuthContextFromRequest cfg pepper db now req = some context)
    (hfresh : ∀ s ∈ db.sessions,
      s.tokenHash ≠ hashSessionToken pepper freshToken)
    (hhash : (db.sessions.map DbSession.tokenHash).Nodup)
    (hids : ∀ s ∈ db.sessions, s.id < db.nextSessionId)
    (now2 : Nat)
    (hexp2 : now2 < now + cfg.sessionTtlHours * 60 * 60 * 1000) :
    (∀ req2, cookieGet req2 cfg.sessionCookieName = some context.sessionToken →
      getAuthContextFromRequest cfg pepper
        (rotateSession cfg pepper db now req context freshToken).2 now2 req2 =
        none) ∧
    (∀ req2, cookieGet req2 cfg.sessionCookieName = some freshToken →
      freshToken ≠ "" →
      ∃ ctx2, getAuthContextFromRequest cfg pepper
          (rotateSession cfg pepper db now req context freshToken).2 now2 req2 =
          some ctx2 ∧ ctx2.user.id = context.user.id) := by
  obtain ⟨s0, u0, hcook0, hfind0, hfu0, hmap⟩ :=
    resolveContext_some_inv cfg pepper db now req context hctx
  have hlive0 := List.find?_some hfind0
  have hmem0 := List.mem_of_find?_eq_some hfind0
  unfold sessionRowLive at hlive0
  simp only [Bool.and_eq_true, beq_iff_eq, decide_eq_true_eq] at hlive0
  obtain ⟨⟨⟨hh0, hrev0⟩, _⟩, hact0⟩ := hlive0
  rw [hfu0] at hact0
  have hact : u0.isActive = true := hact0
  have huid0 : u0.id = s0.userId := by
    have h := List.find?_some hfu0
    simpa using h
  have hsid : context.sessionId = s0.id := by
    rw [hmap]
    rfl
  have hcuid : context.user.id = u0.id := by
    rw [hmap]
    rfl
  have hs0lt : s0.id < db.nextSessionId := hids s0 hmem0
  have hsess : (rotateSession cfg pepper db now req context freshToken).2.sessions =
      (db.sessions ++
        [({ id := db.nextSessionId, userId := context.user.id,
            tokenHash := hashSessionToken pepper freshToken,
            expiresAt := now + cfg.sessionTtlHours * 60 * 60 * 1000,
            revokedAt := none, ipAddress := getClientIp req,
            userAgent := getUserAgent req } : DbSession)]).map
        (fun (s : DbSession) =>
          if s.id == context.sessionId && s.revokedAt == none then
            { s with revokedAt := some now } else s) := rfl
  have hne : ((db.nextSessionId : Nat) == context.sessionId) = false := by
    rw [hsid]
    simp only [beq_eq_false_iff_ne, ne_eq]
    omega
  simp only [List.map_append, List.map_singleton, hne, Bool.false_and,
    Bool.false_eq_true, if_false] at hsess
  constructor
  · -- the old raw token now resolves to null
    intro req2 hcook2
    apply resolveContext_none_of_revoked
    intro tok htok s hs hmatch
    have htokeq : tok = context.sessionToken := by
      have h := htok.symm.trans hcook2
      injection h
    subst htokeq
    rw [hsess] at hs
    rcases List.mem_append.mp hs with hleft | hright
    · obtain ⟨s1, hs1, heq⟩ := List.mem_map.mp hleft
      by_cases hc : (s1.id == context.sessionId && s1.revokedAt == none) = true
      · simp only [hc, if_true] at heq
        rw [← heq]
        simp
      · simp only [hc, Bool.false_eq_true, if_false] at heq
        have hth : s1.tokenHash = s0.tokenHash := by
          rw [heq, hmatch]
          exact hh0.symm
        have hs1s0 : s1 = s0 := List.inj_on_of_nodup_map hhash hs1 hmem0 hth
        exfalso
        apply hc
        rw [hs1s0, hsid, hrev0]
        simp
    · have hs_eq := List.mem_singleton.mp hright
      have hsf : s.tokenHash = hashSessionToken pepper freshToken := by
        rw [hs_eq]
      exact absurd (hh0.trans (hmatch.symm.trans hsf)) (hfresh s0 hmem0)
  · -- the fresh raw token resolves for the same user
    intro req2 hcook2 hne2
    have hbe : (freshToken == "") = false := by simp [hne2]
    have hfuB : findUser
        (rotateSession cfg pepper db now req context freshToken).2
        context.user.id = some u0 := by
      show findUser db context.user.id = some u0
      rw [hcuid, huid0]
      exact hfu0
    have hrowlive : sessionRowLive
        (rotateSession cfg pepper db now req context freshToken).2 now2
        (hashSessionToken pepper freshToken)
        ({ id := db.nextSessionId, userId := context.user.id,
           tokenHash := hashSessionToken pepper freshToken,
           expiresAt := now + cfg.sessionTtlHours * 60 * 60 * 1000,
           revokedAt := none, ipAddress := getClientIp req,
           userAgent := getUserAgent req } : DbSession) = true := by
      unfold sessionRowLive
      simp only [hfuB, hexp2, hact]
      simp
    have hfindB : (rotateSession cfg pepper db now req context
        freshToken).2.sessions.find?
        (sessionRowLive (rotateSession cfg pepper db now req context freshToken).2
          now2 (hashSessionToken pepper freshToken)) =
        some ({ id := db.nextSessionId, userId := context.user.id,
                tokenHash := hashSessionToken pepper freshToken,
                expiresAt := now + cfg.sessionTtlHours * 60 * 60 * 1000,
                revokedAt := none, ipAddress := getClientIp req,
                userAgent := getUserAgent req } : DbSession) := by
      rw [hsess, List.find?_append]
      have hnone : (db.sessions.map
          (fun (s : DbSession) =>
            if s.id == context.sessionId && s.revokedAt == none then
              { s with revokedAt := some now } else s)).find?
          (sessionRowLive (rotateSession cfg pepper db now req context freshToken).2
            now2 (hashSessionToken pepper freshToken)) = none := by
        rw [List.find?_eq_none]
        intro x hx hlx
        obtain ⟨s1, hs1, heq⟩ := List.mem_map.mp hx
        unfold sessionRowLive at hlx
        simp only [Bool.and_eq_true, beq_iff_eq] at hlx
        have hxh : x.tokenHash = s1.tokenHash := by
          by_cases hc : (s1.id == context.sessionId && s1.revokedAt == none) = true
          · simp only [hc, if_true] at heq
            rw [← heq]
          · simp only [hc, Bool.false_eq_true, if_false] at heq
            rw [← heq]
        exact hfresh s1 hs1 (hxh.symm.trans hlx.1.1.1)
      rw [hnone]
      rw [List.find?_cons_of_pos _ hrowlive]
      rfl
    unfold getAuthContextFromRequest
    simp only [hcook2, hbe, Bool.false_eq_true, if_false, hfindB, hfuB]
    exact ⟨_, rfl, hcuid.symm⟩

/-- C7 witness: rotating the fixture admin's session renders the old raw
token `tokA` unresolvable while the fresh token `tokC` resolves to a
context owned by the same user id. -/
theorem rotateSession_spec_witness :
    getAuthContextFromRequest defaultAuthConfig fxPepper
        (rotateSession defaultAuthConfig fxPepper fxDb 500 fxReqAlice
          (mapAuthContext fxDb
            { id := 1, email := "alice@x.com", fullName := some "Alice",
              isActive := true, passwordHash := "ha" }
            { id := 1, userId := 1, tokenHash := hashSessionToken fxPepper "tokA",
              expiresAt := 2000000, revokedAt := none, ipAddress := none,
              userAgent := none } "tokA") "tokC").2 600 fxReqAlice = none ∧
    (∃ ctx2, getAuthContextFromRequest defaultAuthConfig fxPepper
        (rotateSession defaultAuthConfig fxPepper fxDb 500 fxReqAlice
          (mapAuthContext fxDb
            { id := 1, email := "alice@x.com", fullName := some "Alice",
              isActive := true, passwordHash := "ha" }
            { id := 1, userId := 1, tokenHash := hashSessionToken fxPepper "tokA",
              expiresAt := 2000000, revokedAt := none, ipAddress := none,
              userAgent := none } "tokA") "tokC").2 600
        { method := "GET", headers := [], host := "app.example",
          cookies := [("stocks_hunter_session", "tokC")] } = some ctx2 ∧
      ctx2.user.id = 1) := by
  have h := rotateSession_spec defaultAuthConfig fxPepper fxDb 500 fxReqAlice
    (mapAuthContext fxDb
      { id := 1, email := "alice@x.com", fullName := some "Alice",
        isActive := true, passwordHash := "ha" }
      { id := 1, userId := 1, tokenHash := hashSessionToken fxPepper "tokA",
        expiresAt := 2000000, revokedAt := none, ipAddress := none,
        userAgent := none } "tokA") "tokC"
    (by decide) (by decide) (by decide) (by decide) 600 (by decide)
  exact ⟨h.1 fxReqAlice (by decide),
    h.2 { method := "GET", headers := [], host := "app.example",
          cookies := [("stocks_hunter_session", "tokC")] } (by decide) (by decide)⟩

end StocksHunter
